import Mathlib

/-!
Shallow embedding of the in-memory virtual library catalog
(`virtual library/virtual_library.js`) and proofs of its specified
properties.

Modelling conventions:
* JavaScript dates are modelled at day granularity as integers (a day
  number); both `borrowDate` and `dueDate` are day numbers, matching the
  code's normalisation of dates to the start of the day before comparing.
* JavaScript numbers used for ratings are modelled as rationals; years,
  penalty points and day counts as integers.
* Each mutating operation takes the catalog state and returns the typed
  outcome together with the state after the call; an early `return` in
  the JavaScript leaves the global arrays untouched, which the embedding
  mirrors by returning the input state in those branches.
* `find`/`findIndex` return the first match; in-place mutation of the
  found element is mirrored by rewriting the first matching element of
  the list (`updateFirstBook`, `updateFirstUser`); `splice(idx, 1)` at a
  found index is mirrored by erasing the first matching element.
* `[...arr].sort(cmp)` sorts a copy; the comparator
  `(a, b) => b.rating - a.rating` is the Boolean relation
  `b.rating ≤ a.rating`, and JavaScript's `Array.prototype.sort` is
  stable, which `List.mergeSort` is as well.
-/

namespace VirtualLibrary

structure Book where
  id : String
  title : String
  author : String
  genre : String
  rating : ℚ
  publicationYear : Int
  isAvailable : Bool
  borrowCount : Nat
deriving DecidableEq

structure BorrowEntry where
  bookId : String
  borrowDate : Int
  dueDate : Int
deriving DecidableEq

structure User where
  id : String
  name : String
  borrowedBooks : List BorrowEntry
  penaltyPoints : Int
deriving DecidableEq

structure Library where
  books : List Book
  users : List User
deriving DecidableEq

/-- The typed outcomes of the catalog operations (the error taxonomy). -/
inductive LibError where
  | validationError
  | duplicateIdError
  | userNotFound
  | bookNotFound
  | bookUnavailable
  | alreadyBorrowed
  | notBorrowedByUser
  | bookCurrentlyBorrowed
  | invalidQuery
deriving DecidableEq

/-- `toLowerCase()`: lower-case every character. (Structurally recursive on
the character list so that concrete instances reduce in the kernel;
extensionally this is `String.toLower`.) -/
def jsToLower (s : String) : String :=
  String.mk (s.data.map Char.toLower)

/-- `libraryBooks.find(book => book.id === bookId)`. -/
def findBookById (lib : Library) (bookId : String) : Option Book :=
  lib.books.find? (fun b => b.id == bookId)

/-- `libraryUsers.find(user => user.name.toLowerCase() === userName.toLowerCase())`. -/
def findUserByName (lib : Library) (userName : String) : Option User :=
  lib.users.find? (fun u => jsToLower u.name == jsToLower userName)

/-- `calculateDueDate`: the due date is 14 days after the borrow date. -/
def calculateDueDate (borrowDate : Int) : Int :=
  borrowDate + 14

/-- `checkOverdueStatus`: at day granularity, overdue iff `today > dueDate`,
with `daysOverdue = today - dueDate` (the `Math.ceil` of an exact number of
days). Returns `(isOverdue, daysOverdue)`. -/
def checkOverdueStatus (entry : BorrowEntry) (today : Int) : Bool × Int :=
  if entry.dueDate < today then (true, today - entry.dueDate) else (false, 0)

/-- Rewrite the first book whose id matches, mirroring in-place mutation of
the object returned by `find`. -/
def updateFirstBook : List Book → String → (Book → Book) → List Book
  | [], _, _ => []
  | b :: rest, bookId, f =>
    if b.id == bookId then f b :: rest else b :: updateFirstBook rest bookId f

/-- Rewrite the first user whose name matches case-insensitively, mirroring
in-place mutation of the object returned by `find`. -/
def updateFirstUser : List User → String → (User → User) → List User
  | [], _, _ => []
  | u :: rest, userName, f =>
    if jsToLower u.name == jsToLower userName then f u :: rest
    else u :: updateFirstUser rest userName f

/-- `splice(bookIndex, 1)` at the index found by `findIndex`: erase the
first matching book. -/
def eraseFirstBook : List Book → String → List Book
  | [], _ => []
  | b :: rest, bookId =>
    if b.id == bookId then rest else b :: eraseFirstBook rest bookId

/-- `splice(borrowIndex, 1)` at the index found by `findIndex`: erase the
first matching borrow entry. -/
def eraseFirstEntry : List BorrowEntry → String → List BorrowEntry
  | [], _ => []
  | e :: rest, bookId =>
    if e.bookId == bookId then rest else e :: eraseFirstEntry rest bookId

/-- The entry found by `findIndex(entry => entry.bookId === bookId)`. -/
def findFirstEntry (entries : List BorrowEntry) (bookId : String) : Option BorrowEntry :=
  entries.find? (fun e => e.bookId == bookId)

/-- A candidate record passed to `addBook`. A field holds `none` when it is
missing or of the wrong type (`undefined`, `null`, a non-number where
`typeof book.rating !== 'number'` would fire, …); a present, well-typed
field holds `some`. JavaScript truthiness additionally rejects the empty
string and the number `0`, which the operation itself checks. -/
structure BookCandidate where
  id : Option String
  title : Option String
  author : Option String
  genre : Option String
  rating : Option ℚ
  publicationYear : Option Int
deriving DecidableEq

/-- `addBook`: validates truthiness of `id`, `title`, `author`, `genre`,
`typeof rating === 'number'` and truthiness of `publicationYear`, rejects
duplicate ids, then pushes a new book that is available with zero
borrows. -/
def addBook (lib : Library) (c : BookCandidate) : Except LibError Unit × Library :=
  match c.id, c.title, c.author, c.genre, c.rating, c.publicationYear with
  | some id, some title, some author, some genre, some rating, some year =>
    if id == "" || title == "" || author == "" || genre == "" || year == 0 then
      (.error .validationError, lib)
    else if (findBookById lib id).isSome then
      (.error .duplicateIdError, lib)
    else
      (.ok (), { lib with
        books := lib.books ++
          [{ id := id, title := title, author := author, genre := genre,
             rating := rating, publicationYear := year,
             isAvailable := true, borrowCount := 0 }] })
  | _, _, _, _, _, _ => (.error .validationError, lib)

/-- `borrowBook(userName, bookId)` on a given day. -/
def borrowBook (lib : Library) (userName bookId : String) (today : Int) :
    Except LibError Unit × Library :=
  match findUserByName lib userName, findBookById lib bookId with
  | none, _ => (.error .userNotFound, lib)
  | some _, none => (.error .bookNotFound, lib)
  | some user, some book =>
    if book.isAvailable = false then
      (.error .bookUnavailable, lib)
    else if user.borrowedBooks.any (fun e => e.bookId == bookId) then
      (.error .alreadyBorrowed, lib)
    else
      (.ok (), { lib with
        books := updateFirstBook lib.books bookId
          (fun b => { b with isAvailable := false, borrowCount := b.borrowCount + 1 }),
        users := updateFirstUser lib.users userName
          (fun u => { u with borrowedBooks := u.borrowedBooks ++
            [{ bookId := bookId, borrowDate := today,
               dueDate := calculateDueDate today }] }) })

/-- `returnBook(userName, bookId)` on a given day. -/
def returnBook (lib : Library) (userName bookId : String) (today : Int) :
    Except LibError Unit × Library :=
  match findUserByName lib userName, findBookById lib bookId with
  | none, _ => (.error .userNotFound, lib)
  | some _, none => (.error .bookNotFound, lib)
  | some user, some _ =>
    match findFirstEntry user.borrowedBooks bookId with
    | none => (.error .notBorrowedByUser, lib)
    | some entry =>
      let st := checkOverdueStatus entry today
      (.ok (), { lib with
        books := updateFirstBook lib.books bookId
          (fun b => { b with isAvailable := true }),
        users := updateFirstUser lib.users userName (fun u =>
          let u2 := { u with borrowedBooks := eraseFirstEntry u.borrowedBooks bookId }
          if st.1 then { u2 with penaltyPoints := u2.penaltyPoints + st.2 * 5 }
          else u2) })

/-- `removeBook(bookId)`: only an available book may be removed. -/
def removeBook (lib : Library) (bookId : String) : Except LibError Unit × Library :=
  match findBookById lib bookId with
  | none => (.error .bookNotFound, lib)
  | some book =>
    if book.isAvailable = false then
      (.error .bookCurrentlyBorrowed, lib)
    else
      (.ok (), { lib with books := eraseFirstBook lib.books bookId })

/-- A dynamically typed search value: a string, or a JavaScript number. -/
inductive SearchValue where
  | str (s : String)
  | num (q : ℚ)
deriving DecidableEq

/-- `String(value)` as used by the author/genre branches. -/
def SearchValue.asString : SearchValue → String
  | .str s => s
  | .num q => toString q

/-- Substring containment, `String.prototype.includes`. -/
def strIncludes (s sub : String) : Bool :=
  (List.range (s.length + 1)).any (fun i => sub.isPrefixOf (s.drop i))

/-- `searchBooksBy(param, value)`: dispatch on the lower-cased field name;
the rating and year branches demand a numeric value; an unknown field is an
invalid query. Filters preserve catalog insertion order. -/
def searchBooksBy (lib : Library) (param : String) (value : SearchValue) :
    Except LibError (List Book) × Library :=
  if jsToLower param = "author" then
    (.ok (lib.books.filter (fun b =>
      strIncludes (jsToLower b.author) (jsToLower value.asString))), lib)
  else if jsToLower param = "genre" then
    (.ok (lib.books.filter (fun b =>
      jsToLower b.genre == jsToLower value.asString)), lib)
  else if jsToLower param = "rating" then
    match value with
    | .num q => (.ok (lib.books.filter (fun b => q ≤ b.rating)), lib)
    | .str _ => (.error .invalidQuery, lib)
  else if jsToLower param = "year" then
    match value with
    | .num q => (.ok (lib.books.filter (fun b => q ≤ (b.publicationYear : ℚ))), lib)
    | .str _ => (.error .invalidQuery, lib)
  else (.error .invalidQuery, lib)

/-- The comparator `(a, b) => b.rating - a.rating` of the rating-ranked
queries, as the Boolean total preorder it induces on books. -/
def ratingGe (a b : Book) : Bool :=
  b.rating ≤ a.rating

/-- The comparator `(a, b) => b.borrowCount - a.borrowCount`. -/
def borrowCountGe (a b : Book) : Bool :=
  b.borrowCount ≤ a.borrowCount

/-- `[...books].sort((a, b) => b.rating - a.rating)`: a stable sort of a
copy of the catalog, descending by rating. -/
def sortByRatingDesc (books : List Book) : List Book :=
  books.mergeSort ratingGe

/-- `arr.slice(0, limit)` with JavaScript semantics: a negative `limit`
counts from the end of the array. -/
def sliceTo (l : List Book) (limit : Int) : List Book :=
  if 0 ≤ limit then l.take limit.toNat
  else l.take (l.length - min (-limit).toNat l.length)

/-- `getTopRatedBooks(limit)`: sort a copy descending by rating and take
`slice(0, limit)`. -/
def getTopRatedBooks (lib : Library) (limit : Int) : List Book × Library :=
  (sliceTo (sortByRatingDesc lib.books) limit, lib)

/-- `getMostPopularBooks(limit)`: sort a copy descending by borrow count
and take `slice(0, limit)`. -/
def getMostPopularBooks (lib : Library) (limit : Int) : List Book × Library :=
  (sliceTo (lib.books.mergeSort borrowCountGe) limit, lib)

/-- The genres of the user's currently borrowed books that still resolve to
a catalog book (`.map(... || null).filter(g => g !== null)`). -/
def borrowedGenres (lib : Library) (user : User) : List String :=
  user.borrowedBooks.filterMap (fun e => (findBookById lib e.bookId).map Book.genre)

/-- The available books the user does not currently hold, in catalog
order. -/
def unborrowedAvailable (lib : Library) (user : User) : List Book :=
  lib.books.filter (fun b =>
    b.isAvailable && !(user.borrowedBooks.any (fun e => e.bookId == b.id)))

/-- `recommendBooks(userName)`: genre-matched available unborrowed books
sorted by rating, falling back twice to the top five available unborrowed
books by rating. -/
def recommendBooks (lib : Library) (userName : String) :
    Except LibError (List Book) × Library :=
  match findUserByName lib userName with
  | none => (.error .userNotFound, lib)
  | some user =>
    let genres := borrowedGenres lib user
    if genres.isEmpty then
      (.ok ((sortByRatingDesc (unborrowedAvailable lib user)).take 5), lib)
    else
      let recs := sortByRatingDesc
        ((unborrowedAvailable lib user).filter (fun b => genres.contains b.genre))
      if recs.isEmpty then
        (.ok ((sortByRatingDesc (unborrowedAvailable lib user)).take 5), lib)
      else
        (.ok recs, lib)

/-- One catalog operation of the mutating interface, with the day it is
issued on where relevant. -/
inductive CatalogOp where
  | add (c : BookCandidate)
  | borrow (userName bookId : String) (today : Int)
  | ret (userName bookId : String) (today : Int)
  | remove (bookId : String)

/-- The state after one operation (a failed operation leaves the state as
it was). -/
def applyOp (lib : Library) : CatalogOp → Library
  | .add c => (addBook lib c).2
  | .borrow userName bookId today => (borrowBook lib userName bookId today).2
  | .ret userName bookId today => (returnBook lib userName bookId today).2
  | .remove bookId => (removeBook lib bookId).2

/-- The state after a sequence of operations. -/
def runOps (lib : Library) (ops : List CatalogOp) : Library :=
  ops.foldl applyOp lib

/-- The total number of borrow entries for a book id across all users. -/
def entryCount (users : List User) (bookId : String) : Nat :=
  (users.map (fun u =>
    (u.borrowedBooks.filter (fun e => e.bookId == bookId)).length)).sum

/-- The number of users whose borrowed list mentions the book id. -/
def holders (users : List User) (bookId : String) : Nat :=
  (users.filter (fun u => u.borrowedBooks.any (fun e => e.bookId == bookId))).length

/-- No user currently holds any book. -/
def noBorrows (lib : Library) : Prop :=
  ∀ u ∈ lib.users, u.borrowedBooks = []

/-- Every book is available. -/
def allAvailable (lib : Library) : Prop :=
  ∀ b ∈ lib.books, b.isAvailable = true

/-- The inductive borrowing invariant: book ids are unique, an available
book has no outstanding borrow entry while an unavailable one has exactly
one, and every borrow entry references a catalog book. -/
structure Inv (lib : Library) : Prop where
  nodupIds : (lib.books.map Book.id).Nodup
  count : ∀ b ∈ lib.books, entryCount lib.users b.id = if b.isAvailable then 0 else 1
  refs : ∀ u ∈ lib.users, ∀ e ∈ u.borrowedBooks, ∃ b ∈ lib.books, b.id = e.bookId

/-- An empty catalog. -/
def emptyLib : Library :=
  { books := [], users := [] }

/-- Concrete fixtures mirroring the mock data of `initializeLibraryData`. -/
def demoBook1 : Book :=
  { id := "B1", title := "The Great Adventure", author := "Alice Wonderland",
    genre := "Fantasy", rating := mkRat 9 2, publicationYear := 2005,
    isAvailable := true, borrowCount := 0 }

def demoBook2 : Book :=
  { id := "B2", title := "Code Master", author := "Bob Builder",
    genre := "Technology", rating := mkRat 24 5, publicationYear := 2020,
    isAvailable := true, borrowCount := 0 }

def demoBook3 : Book :=
  { id := "B3", title := "Mystery of the Old House", author := "Charlie Chaplin",
    genre := "Mystery", rating := mkRat 39 10, publicationYear := 1998,
    isAvailable := true, borrowCount := 0 }

def demoUser : User :=
  { id := "U1", name := "John Doe", borrowedBooks := [], penaltyPoints := 0 }

def demoLib : Library :=
  { books := [demoBook1, demoBook2, demoBook3], users := [demoUser] }

/-- `John Doe` holding `B1`, borrowed on day 0 and due on day 14. -/
def demoBorrower : User :=
  { demoUser with
    borrowedBooks := [{ bookId := "B1", borrowDate := 0, dueDate := 14 }] }

/-- A catalog in which `John Doe` currently holds `B1`, borrowed on day 0
and due on day 14. -/
def demoBorrowedLib : Library :=
  { books := [{ demoBook1 with isAvailable := false, borrowCount := 1 },
              demoBook2, demoBook3],
    users := [demoBorrower] }

/-- A fully valid candidate book. -/
def demoCandidate : BookCandidate :=
  { id := some "B9", title := some "New Title", author := some "New Author",
    genre := some "History", rating := some (mkRat 41 10),
    publicationYear := some 2001 }

/-- A candidate whose fields are all present and well-typed but whose
publication year is `0`, which JavaScript truthiness rejects. -/
def zeroYearCandidate : BookCandidate :=
  { id := some "B1", title := some "Year Zero", author := some "Anon",
    genre := some "History", rating := some (mkRat 41 10),
    publicationYear := some 0 }

/-! ### General lemmas about the comparator and the stable sort -/

lemma ratingGe_trans (a b c : Book) (hab : ratingGe a b = true) (hbc : ratingGe b c = true) :
    ratingGe a c = true := by
  simp only [ratingGe, decide_eq_true_eq] at *
  exact le_trans hbc hab

lemma ratingGe_total (a b : Book) : (ratingGe a b || ratingGe b a) = true := by
  simp only [ratingGe, Bool.or_eq_true, decide_eq_true_eq]
  exact le_total b.rating a.rating

lemma pairwise_sortByRatingDesc (l : List Book) :
    List.Pairwise (fun a b : Book => b.rating ≤ a.rating) (sortByRatingDesc l) := by
  have h := List.sorted_mergeSort ratingGe_trans ratingGe_total l
  exact h.imp (fun hab => by simpa [ratingGe] using hab)

lemma pairwise_ratingGe_filter (l : List Book) (r : ℚ) :
    List.Pairwise (fun a b => ratingGe a b = true)
      (l.filter (fun b => b.rating == r)) := by
  apply List.pairwise_of_forall_mem_list
  intro a ha b hb
  rw [List.mem_filter] at ha hb
  have ha2 : a.rating = r := by simpa using ha.2
  have hb2 : b.rating = r := by simpa using hb.2
  simp [ratingGe, ha2, hb2]

/-- Stability of the rating sort: the books of any fixed rating appear in
the sorted list exactly as they appear in the catalog. -/
lemma sortByRatingDesc_filter_ties (l : List Book) (r : ℚ) :
    (sortByRatingDesc l).filter (fun b => b.rating == r)
      = l.filter (fun b => b.rating == r) := by
  have hperm := (List.mergeSort_perm l ratingGe).filter (fun b => b.rating == r)
  have hsub : (l.filter (fun b => b.rating == r)).Sublist (sortByRatingDesc l) :=
    List.sublist_mergeSort ratingGe_trans ratingGe_total
      (pairwise_ratingGe_filter l r) (List.filter_sublist l)
  have hsub2 := hsub.filter (fun b => b.rating == r)
  rw [List.filter_filter] at hsub2
  simp only [Bool.and_self] at hsub2
  exact (hsub2.eq_of_length hperm.length_eq.symm).symm

lemma sliceTo_sublist (l : List Book) (n : Int) : (sliceTo l n).Sublist l := by
  unfold sliceTo
  split <;> apply List.take_sublist

/-! ### Decomposition lemmas for the first-match helpers -/

lemma updateFirstBook_split (l₁ l₂ : List Book) (b : Book) (i : String)
    (f : Book → Book) (h₁ : ∀ x ∈ l₁, (x.id == i) = false) (hb : (b.id == i) = true) :
    updateFirstBook (l₁ ++ b :: l₂) i f = l₁ ++ f b :: l₂ := by
  induction l₁ with
  | nil => simp [updateFirstBook, hb]
  | cons x xs ih =>
    have hx := h₁ x (by simp)
    simp [updateFirstBook, hx, ih (fun y hy => h₁ y (by simp [hy]))]

lemma eraseFirstBook_split (l₁ l₂ : List Book) (b : Book) (i : String)
    (h₁ : ∀ x ∈ l₁, (x.id == i) = false) (hb : (b.id == i) = true) :
    eraseFirstBook (l₁ ++ b :: l₂) i = l₁ ++ l₂ := by
  induction l₁ with
  | nil => simp [eraseFirstBook, hb]
  | cons x xs ih =>
    have hx := h₁ x (by simp)
    simp [eraseFirstBook, hx, ih (fun y hy => h₁ y (by simp [hy]))]

lemma eraseFirstEntry_split (l₁ l₂ : List BorrowEntry) (e : BorrowEntry) (i : String)
    (h₁ : ∀ x ∈ l₁, (x.bookId == i) = false) (he : (e.bookId == i) = true) :
    eraseFirstEntry (l₁ ++ e :: l₂) i = l₁ ++ l₂ := by
  induction l₁ with
  | nil => simp [eraseFirstEntry, he]
  | cons x xs ih =>
    have hx := h₁ x (by simp)
    simp [eraseFirstEntry, hx, ih (fun y hy => h₁ y (by simp [hy]))]

lemma updateFirstUser_split (l₁ l₂ : List User) (u : User) (userName : String)
    (f : User → User)
    (h₁ : ∀ x ∈ l₁, (jsToLower x.name == jsToLower userName) = false)
    (hu : (jsToLower u.name == jsToLower userName) = true) :
    updateFirstUser (l₁ ++ u :: l₂) userName f = l₁ ++ f u :: l₂ := by
  induction l₁ with
  | nil => simp [updateFirstUser, hu]
  | cons x xs ih =>
    have hx := h₁ x (by simp)
    simp [updateFirstUser, hx, ih (fun y hy => h₁ y (by simp [hy]))]

/-! ### C7: the rating search filters by `rating ≥ value` in catalog order -/

/-- C7: for every catalog and numeric value `v`, `searchBooksBy "rating" v`
returns exactly the books whose rating is at least `v`, in catalog
insertion order (a filter of the book list, never re-sorted); over the
demo catalog with ratings `[4.5, 4.8, 3.9]` the query at `4.5` returns
exactly the first two books in their original order. -/
theorem searchBooksBy_rating_spec (lib : Library) (v : ℚ) :
    (searchBooksBy lib "rating" (.num v)).1
      = .ok (lib.books.filter (fun b => v ≤ b.rating))
    ∧ (searchBooksBy demoLib "rating" (.num (mkRat 9 2))).1
      = .ok [demoBook1, demoBook2] := by
  constructor
  · rfl
  · rfl

/-! ### C10: query operations do not mutate the catalog -/

/-- C10: `searchBooksBy`, `getTopRatedBooks`, `getMostPopularBooks` and
`recommendBooks` leave the catalog (books and users, with all flags,
counters and ordering) completely unchanged, for every state and all
arguments; the ranking queries sort a copy of the book list. -/
theorem queries_leave_catalog_unchanged (lib : Library) (p : String)
    (v : SearchValue) (n m : Int) (userName : String) :
    (searchBooksBy lib p v).2 = lib
    ∧ (getTopRatedBooks lib n).2 = lib
    ∧ (getMostPopularBooks lib m).2 = lib
    ∧ (recommendBooks lib userName).2 = lib := by
  refine ⟨?_, rfl, rfl, ?_⟩
  · unfold searchBooksBy
    (repeat' split) <;> rfl
  · unfold recommendBooks
    split
    · rfl
    · dsimp only
      split
      · rfl
      · split <;> rfl

/-! ### C4: `getTopRatedBooks` sorts by rating, stably, with JS slice semantics -/

/-- C4 is false as stated for negative limits: the claim says every
`n ≤ 0` returns the empty sequence, but on the three-book demo catalog
`getTopRatedBooks (-1)` returns a non-empty sequence (JavaScript
`slice(0, -1)` drops only the last element of the sorted copy). -/
theorem getTopRatedBooks_neg_counterexample :
    (-1 : Int) ≤ 0 ∧ (getTopRatedBooks demoLib (-1)).1 ≠ [] := by
  refine ⟨by decide, fun h => ?_⟩
  have hlen := congrArg List.length h
  simp [getTopRatedBooks, sliceTo, demoLib, sortByRatingDesc] at hlen

/-- C4 (amended): `getTopRatedBooks n` is sorted non-increasing by rating;
for `n ≥ 0` its length is `min n totalBooks` (in particular `n = 0` gives
the empty sequence); books of equal rating keep their original insertion
order (the sorted copy filtered to any fixed rating equals the catalog so
filtered); and for `n < 0` JavaScript `slice(0, n)` semantics return the
sorted sequence with its last `min (-n) totalBooks` books dropped rather
than the empty sequence. -/
theorem getTopRatedBooks_spec (lib : Library) (n : Int) :
    List.Pairwise (fun a b : Book => b.rating ≤ a.rating) (getTopRatedBooks lib n).1
    ∧ (0 ≤ n → (getTopRatedBooks lib n).1.length = min n.toNat lib.books.length)
    ∧ (∀ r : ℚ, (sortByRatingDesc lib.books).filter (fun b => b.rating == r)
        = lib.books.filter (fun b => b.rating == r))
    ∧ (getTopRatedBooks lib 0).1 = []
    ∧ (n < 0 → (getTopRatedBooks lib n).1
        = (sortByRatingDesc lib.books).take
            (lib.books.length - min (-n).toNat lib.books.length)) := by
  refine ⟨?_, ?_, ?_, ?_, ?_⟩
  · exact (pairwise_sortByRatingDesc lib.books).sublist
      (sliceTo_sublist (sortByRatingDesc lib.books) n)
  · intro h
    simp [getTopRatedBooks, sliceTo, h, sortByRatingDesc, List.length_mergeSort]
  · exact sortByRatingDesc_filter_ties lib.books
  · rfl
  · intro h
    simp only [getTopRatedBooks, sliceTo, not_le.mpr h, if_false,
      sortByRatingDesc, List.length_mergeSort]

/-- Witness for C4 at the demo catalog with `n = 2`. -/
theorem getTopRatedBooks_spec_witness :
    (0 : Int) ≤ 2
    ∧ (getTopRatedBooks demoLib 2).1.length = min (2 : Int).toNat demoLib.books.length :=
  ⟨by decide, (getTopRatedBooks_spec demoLib 2).2.1 (by decide)⟩

/-! ### C8: exactly which queries are invalid -/

/-- C8 is false as stated on the case of the field name: the code
lower-cases the field before dispatching, so `searchBooksBy "AUTHOR" …`
succeeds (with an empty result on the empty catalog) although `"AUTHOR"`
is not one of `author`, `genre`, `rating`, `year`. -/
theorem searchBooksBy_field_case_counterexample :
    "AUTHOR" ∉ (["author", "genre", "rating", "year"] : List String)
    ∧ (searchBooksBy emptyLib "AUTHOR" (.str "x")).1 = .ok [] := by
  exact ⟨by decide, rfl⟩

/-- C8 (amended): `searchBooksBy field value` fails with the typed outcome
`InvalidQuery` (as opposed to succeeding, possibly with an empty result)
exactly when the lower-cased `field` is not one of `author`, `genre`,
`rating`, `year`, or the lower-cased `field` is `rating` or `year` and
`value` is not numeric. -/
theorem searchBooksBy_invalidQuery_spec (lib : Library) (p : String) (v : SearchValue) :
    (searchBooksBy lib p v).1 = .error .invalidQuery
      ↔ (jsToLower p ∉ (["author", "genre", "rating", "year"] : List String)
         ∨ ((jsToLower p = "rating" ∨ jsToLower p = "year") ∧ ∀ q : ℚ, v ≠ .num q)) := by
  by_cases ha : jsToLower p = "author"
  · simp [searchBooksBy, ha]
  by_cases hg : jsToLower p = "genre"
  · simp [searchBooksBy, hg, ha]
  by_cases hr : jsToLower p = "rating"
  · rcases v with s | q
    · simp [searchBooksBy, hr, ha, hg]
    · simp [searchBooksBy, hr, ha, hg]
  by_cases hy : jsToLower p = "year"
  · rcases v with s | q
    · simp [searchBooksBy, hy, ha, hg, hr]
    · simp [searchBooksBy, hy, ha, hg, hr]
  · simp [searchBooksBy, ha, hg, hr, hy]

/-! ### C5: `removeBook` fails exactly on borrowed books and never
partially removes -/

/-- After erasing the one book carrying a unique id, no book with that id
remains. -/
lemma findBookById_after_erase (lib : Library) (bookId : String)
    (hnd : (lib.books.map Book.id).Nodup) (b : Book)
    (hfind : findBookById lib bookId = some b) :
    (eraseFirstBook lib.books bookId).find? (fun x => x.id == bookId) = none := by
  obtain ⟨hp, l₁, l₂, hdec, hl₁⟩ := List.find?_eq_some.mp hfind
  have hl₁f : ∀ x ∈ l₁, (x.id == bookId) = false := by
    intro x hx
    simpa using hl₁ x hx
  rw [hdec, eraseFirstBook_split l₁ l₂ b bookId hl₁f hp]
  rw [List.find?_append]
  have h1 : l₁.find? (fun x => x.id == bookId) = none :=
    List.find?_eq_none.mpr (fun x hx => by simp [hl₁f x hx])
  have h2 : l₂.find? (fun x => x.id == bookId) = none := by
    have hnd2 : ((b :: l₂).map Book.id).Nodup := by
      refine List.Nodup.sublist ?_ (hdec ▸ hnd)
      rw [List.map_append]
      exact List.sublist_append_right _ _
    have hparts : (∀ x ∈ l₂, ¬x.id = b.id) ∧ (l₂.map Book.id).Nodup := by
      simp at hnd2
      exact hnd2
    refine List.find?_eq_none.mpr (fun x hx => ?_)
    have hxid : x.id ≠ bookId := by
      have hbid : b.id = bookId := by simpa using hp
      rw [← hbid]
      exact fun hxe => hparts.1 x hx hxe
    simp [hxid]
  simp [h1, h2]

/-- C5: `removeBook` on an existing book fails with `BookCurrentlyBorrowed`
iff that book is unavailable; any failure leaves the catalog completely
unchanged; on success (book present and available) it deletes the book
from the collection and touches nothing else. -/
theorem removeBook_spec (lib : Library) (bookId : String)
    (hnd : (lib.books.map Book.id).Nodup) :
    ((removeBook lib bookId).1 = .error .bookCurrentlyBorrowed
       ↔ ∃ b, findBookById lib bookId = some b ∧ b.isAvailable = false)
    ∧ (∀ e, (removeBook lib bookId).1 = .error e → (removeBook lib bookId).2 = lib)
    ∧ (∀ b, findBookById lib bookId = some b → b.isAvailable = true →
        (removeBook lib bookId).1 = .ok ()
        ∧ (removeBook lib bookId).2.books = eraseFirstBook lib.books bookId
        ∧ findBookById (removeBook lib bookId).2 bookId = none
        ∧ (removeBook lib bookId).2.users = lib.users) := by
  rcases h : findBookById lib bookId with _ | b
  · refine ⟨by simp [removeBook, h], fun e _ => by simp [removeBook, h], ?_⟩
    intro b hb _
    exact absurd hb (by simp)
  · rcases hav : b.isAvailable with _ | _
    · refine ⟨by simp [removeBook, h, hav], fun e _ => by simp [removeBook, h, hav], ?_⟩
      intro b2 hb2 hav2
      obtain rfl : b = b2 := by simpa using hb2
      rw [hav] at hav2
      exact absurd hav2 (by simp)
    · refine ⟨by simp [removeBook, h, hav], fun e he => ?_, ?_⟩
      · rw [removeBook, h] at he
        simp [hav] at he
      · intro b2 hb2 _
        obtain rfl : b = b2 := by simpa using hb2
        refine ⟨by simp [removeBook, h, hav], by simp [removeBook, h, hav], ?_,
          by simp [removeBook, h, hav]⟩
        have hnone := findBookById_after_erase lib bookId hnd b h
        simp only [removeBook, h, hav]
        simpa [findBookById] using hnone

/-- Witness for C5 at the demo catalog: `B1` is available, so removal
succeeds and the book is gone. -/
theorem removeBook_spec_witness :
    (removeBook demoLib "B1").1 = .ok ()
    ∧ findBookById (removeBook demoLib "B1").2 "B1" = none := by
  have h := (removeBook_spec demoLib "B1" (by decide)).2.2 demoBook1 (by decide) rfl
  exact ⟨h.1, h.2.2.1⟩

/-! ### C6: `addBook` validation, duplicate detection and insertion -/

/-- C6 is false as stated on JavaScript truthiness: a candidate whose
fields are all present and well-typed (none is `none`) is rejected with
`ValidationError` because its publication year is `0`, which is falsy. -/
theorem addBook_truthiness_counterexample :
    zeroYearCandidate.id ≠ none
    ∧ zeroYearCandidate.title ≠ none
    ∧ zeroYearCandidate.author ≠ none
    ∧ zeroYearCandidate.genre ≠ none
    ∧ zeroYearCandidate.rating ≠ none
    ∧ zeroYearCandidate.publicationYear ≠ none
    ∧ (addBook emptyLib zeroYearCandidate).1 = .error .validationError := by
  refine ⟨by decide, by decide, by decide, by decide, by decide, by decide, rfl⟩

/-- C6 (amended): `addBook` fails with `ValidationError` exactly when a
field is missing or wrong-typed (modelled as `none`) or — by JavaScript
truthiness — a string field is empty or the publication year is `0`; it
fails with `DuplicateIdError` exactly when the candidate passes validation
but its id already exists; both failures leave the catalog unchanged; and
otherwise it appends the new book with `isAvailable = true` and
`borrowCount = 0`. -/
theorem addBook_spec (lib : Library) (c : BookCandidate) :
    ((addBook lib c).1 = .error .validationError
      ↔ (c.id = none ∨ c.title = none ∨ c.author = none ∨ c.genre = none
         ∨ c.rating = none ∨ c.publicationYear = none
         ∨ c.id = some "" ∨ c.title = some "" ∨ c.author = some ""
         ∨ c.genre = some "" ∨ c.publicationYear = some 0))
    ∧ ((addBook lib c).1 = .error .duplicateIdError
      ↔ ((addBook lib c).1 ≠ .error .validationError
         ∧ ∃ i, c.id = some i ∧ (findBookById lib i).isSome = true))
    ∧ (∀ e, (addBook lib c).1 = .error e → (addBook lib c).2 = lib)
    ∧ ((addBook lib c).1 = .ok () →
        ∃ i t a g r y, c = ⟨some i, some t, some a, some g, some r, some y⟩
          ∧ (addBook lib c).2.books = lib.books ++
              [{ id := i, title := t, author := a, genre := g, rating := r,
                 publicationYear := y, isAvailable := true, borrowCount := 0 }]
          ∧ (addBook lib c).2.users = lib.users) := by
  obtain ⟨oid, oti, oau, oge, ora, oyr⟩ := c
  rcases oid with _ | i
  · exact ⟨by simp [addBook], by simp [addBook], fun e _ => by simp [addBook], by simp [addBook]⟩
  rcases oti with _ | t
  · exact ⟨by simp [addBook], by simp [addBook], fun e _ => by simp [addBook], by simp [addBook]⟩
  rcases oau with _ | a
  · exact ⟨by simp [addBook], by simp [addBook], fun e _ => by simp [addBook], by simp [addBook]⟩
  rcases oge with _ | g
  · exact ⟨by simp [addBook], by simp [addBook], fun e _ => by simp [addBook], by simp [addBook]⟩
  rcases ora with _ | r
  · exact ⟨by simp [addBook], by simp [addBook], fun e _ => by simp [addBook], by simp [addBook]⟩
  rcases oyr with _ | y
  · exact ⟨by simp [addBook], by simp [addBook], fun e _ => by simp [addBook], by simp [addBook]⟩
  by_cases hval : (i == "" || t == "" || a == "" || g == "" || y == 0) = true
  · have hval2 := hval
    simp only [Bool.or_eq_true, beq_iff_eq] at hval2
    have hres : (addBook lib ⟨some i, some t, some a, some g, some r, some y⟩).1
        = .error .validationError := by
      simp [addBook, hval]
    refine ⟨?_, by simp [hres], fun e _ => by simp [addBook, hval], by simp [hres]⟩
    constructor
    · intro _
      simp only [Option.some.injEq]
      simp only [reduceCtorEq, false_or]
      tauto
    · intro _
      exact hres
  · have hval2 := hval
    simp only [Bool.or_eq_true, beq_iff_eq, not_or] at hval2
    by_cases hdup : (findBookById lib i).isSome
    · have hres : (addBook lib ⟨some i, some t, some a, some g, some r, some y⟩).1
          = .error .duplicateIdError := by
        simp [addBook, hval, hdup]
      refine ⟨?_, ?_, fun e _ => by simp [addBook, hval, hdup], by simp [hres]⟩
      · simp only [hres]
        constructor
        · intro h
          exact absurd h (by simp)
        · intro hRHS
          exfalso
          rcases hRHS with h | h | h | h | h | h | h | h | h | h | h <;> simp_all
      · simp only [hres]
        refine ⟨fun _ => ⟨by simp, i, rfl, hdup⟩, fun _ => by trivial⟩
    · have hres : (addBook lib ⟨some i, some t, some a, some g, some r, some y⟩).1
          = .ok () := by
        simp [addBook, hval, hdup]
      refine ⟨?_, ?_, fun e he => ?_, ?_⟩
      · simp only [hres]
        constructor
        · intro h
          exact absurd h (by simp)
        · intro hRHS
          exfalso
          rcases hRHS with h | h | h | h | h | h | h | h | h | h | h <;> simp_all
      · simp only [hres]
        constructor
        · intro h
          exact absurd h (by simp)
        · rintro ⟨-, i2, hi2, hdup2⟩
          obtain rfl : i = i2 := by simpa using hi2
          exact absurd hdup2 hdup
      · rw [hres] at he
        exact absurd he.symm (by simp)
      · intro _
        exact ⟨i, t, a, g, r, y, rfl, by simp [addBook, hval, hdup], by simp [addBook, hval, hdup]⟩

/-- Witness for C6: adding a valid, fresh candidate to the empty catalog
succeeds and leaves the user collection untouched. -/
theorem addBook_spec_witness :
    (addBook emptyLib demoCandidate).1 = .ok ()
    ∧ (addBook emptyLib demoCandidate).2.users = emptyLib.users := by
  have h := (addBook_spec emptyLib demoCandidate).2.2.2 rfl
  obtain ⟨i, t, a, g, r, y, _, _, husers⟩ := h
  exact ⟨rfl, husers⟩

/-! ### C2: overdue returns add exactly `5 * k` penalty points -/

/-- C2: if a user holds an entry for an existing book and returns it
exactly `k > 0` days after the entry's due date (day granularity), the
return succeeds, the user's penalty points increase by exactly `5 * k`,
and the entry is removed from the user's borrowed list. -/
theorem returnBook_overdue_penalty (lib : Library) (userName bookId : String)
    (u : User) (e : BorrowEntry) (k today : Int)
    (hu : findUserByName lib userName = some u)
    (hb : (findBookById lib bookId).isSome = true)
    (he : findFirstEntry u.borrowedBooks bookId = some e)
    (hk : 0 < k) (htoday : today = e.dueDate + k) :
    (returnBook lib userName bookId today).1 = .ok ()
    ∧ ∃ u2, findUserByName (returnBook lib userName bookId today).2 userName = some u2
        ∧ u2.penaltyPoints = u.penaltyPoints + 5 * k
        ∧ u2.borrowedBooks = eraseFirstEntry u.borrowedBooks bookId := by
  rcases Option.isSome_iff_exists.mp hb with ⟨b, hbk⟩
  have hst : checkOverdueStatus e today = (true, k) := by
    rw [htoday]
    rw [checkOverdueStatus, if_pos (by omega : e.dueDate < e.dueDate + k)]
    congr 1
    omega
  obtain ⟨hpu, m₁, m₂, hdecu, hm₁⟩ := List.find?_eq_some.mp hu
  have hm₁f : ∀ x ∈ m₁, (jsToLower x.name == jsToLower userName) = false := by
    intro x hx
    simpa using hm₁ x hx
  constructor
  · simp [returnBook, hu, hbk, he]
  · simp only [returnBook, hu, hbk, he, hst]
    have hpen : u.penaltyPoints + k * 5 = u.penaltyPoints + 5 * k := by omega
    refine Exists.intro
      { u with
          borrowedBooks := eraseFirstEntry u.borrowedBooks bookId
          penaltyPoints := u.penaltyPoints + k * 5 }
      ⟨?_, hpen, rfl⟩
    simp only [findUserByName, hdecu]
    rw [updateFirstUser_split m₁ m₂ u userName _ hm₁f hpu]
    rw [List.find?_append, List.find?_eq_none.mpr (fun x hx => by simp [hm₁f x hx]),
      Option.none_or, List.find?_cons]
    simp [hpu]

/-- Witness for C2: returning `B1` on day 20, six days past its day-14 due
date, succeeds and adds 30 penalty points. -/
theorem returnBook_overdue_penalty_witness :
    (returnBook demoBorrowedLib "John Doe" "B1" 20).1 = .ok ()
    ∧ ∃ u2, findUserByName (returnBook demoBorrowedLib "John Doe" "B1" 20).2 "John Doe" = some u2
        ∧ u2.penaltyPoints = demoBorrower.penaltyPoints + 5 * 6
        ∧ u2.borrowedBooks = eraseFirstEntry demoBorrower.borrowedBooks "B1" :=
  returnBook_overdue_penalty demoBorrowedLib "John Doe" "B1" demoBorrower
    { bookId := "B1", borrowDate := 0, dueDate := 14 } 6 20
    (by decide) (by decide) (by decide) (by decide) (by decide)

/-! ### C3: borrow then same-day return never changes penalty points -/

/-- C3: after a successful borrow, returning the same book on the same day
succeeds and leaves the user's penalty points unchanged (the due date is
14 days after borrowing, so a same-day return is never overdue). -/
theorem borrow_then_same_day_return (lib : Library) (userName bookId : String)
    (d : Int) (u : User)
    (hu : findUserByName lib userName = some u)
    (hok : (borrowBook lib userName bookId d).1 = .ok ()) :
    (returnBook (borrowBook lib userName bookId d).2 userName bookId d).1 = .ok ()
    ∧ ∃ u2, findUserByName
          (returnBook (borrowBook lib userName bookId d).2 userName bookId d).2 userName
        = some u2
        ∧ u2.penaltyPoints = u.penaltyPoints := by
  rcases hbk : findBookById lib bookId with _ | b
  · rw [borrowBook, hu, hbk] at hok
    exact absurd hok (by simp)
  have hav : b.isAvailable = true := by
    rcases hav2 : b.isAvailable with _ | _
    · rw [borrowBook, hu, hbk] at hok
      simp [hav2] at hok
    · rfl
  have hheld : u.borrowedBooks.any (fun e => e.bookId == bookId) = false := by
    rcases hh : u.borrowedBooks.any (fun e => e.bookId == bookId) with _ | _
    · rfl
    · rw [borrowBook, hu, hbk] at hok
      simp [hav, hh] at hok
  obtain ⟨hpu, m₁, m₂, hdecu, hm₁⟩ := List.find?_eq_some.mp hu
  have hm₁f : ∀ x ∈ m₁, (jsToLower x.name == jsToLower userName) = false := by
    intro x hx
    simpa using hm₁ x hx
  obtain ⟨hpb, l₁, l₂, hdecb, hl₁⟩ := List.find?_eq_some.mp hbk
  have hl₁f : ∀ x ∈ l₁, (x.id == bookId) = false := by
    intro x hx
    simpa using hl₁ x hx
  have hstate : (borrowBook lib userName bookId d).2
      = { books := l₁ ++
            ({ b with isAvailable := false, borrowCount := b.borrowCount + 1 }) :: l₂
          users := m₁ ++
            ({ u with borrowedBooks := u.borrowedBooks ++
                [{ bookId := bookId, borrowDate := d,
                   dueDate := calculateDueDate d }] }) :: m₂ } := by
    rw [borrowBook, hu, hbk]
    simp only [hav, Bool.true_eq_false, if_false, hheld, Bool.false_eq_true]
    congr 1
    · rw [hdecb]
      exact updateFirstBook_split l₁ l₂ b bookId _ hl₁f hpb
    · rw [hdecu]
      exact updateFirstUser_split m₁ m₂ u userName _ hm₁f hpu
  rw [hstate]
  have hu₁ : findUserByName
      { books := l₁ ++
          ({ b with isAvailable := false, borrowCount := b.borrowCount + 1 }) :: l₂
        users := m₁ ++
          ({ u with borrowedBooks := u.borrowedBooks ++
              [{ bookId := bookId, borrowDate := d,
                 dueDate := calculateDueDate d }] }) :: m₂ } userName
      = some { u with borrowedBooks := u.borrowedBooks ++
          [{ bookId := bookId, borrowDate := d, dueDate := calculateDueDate d }] } := by
    simp only [findUserByName]
    rw [List.find?_append, List.find?_eq_none.mpr (fun x hx => by simp [hm₁f x hx]),
      Option.none_or, List.find?_cons]
    simp [hpu]
  have hb₁ : findBookById
      { books := l₁ ++
          ({ b with isAvailable := false, borrowCount := b.borrowCount + 1 }) :: l₂
        users := m₁ ++
          ({ u with borrowedBooks := u.borrowedBooks ++
              [{ bookId := bookId, borrowDate := d,
                 dueDate := calculateDueDate d }] }) :: m₂ } bookId
      = some { b with isAvailable := false, borrowCount := b.borrowCount + 1 } := by
    simp only [findBookById]
    rw [List.find?_append, List.find?_eq_none.mpr (fun x hx => by simp [hl₁f x hx]),
      Option.none_or, List.find?_cons]
    simp [hpb]
  have hentry : findFirstEntry
      ({ u with borrowedBooks := u.borrowedBooks ++
          [{ bookId := bookId, borrowDate := d,
             dueDate := calculateDueDate d }] } : User).borrowedBooks bookId
      = some { bookId := bookId, borrowDate := d, dueDate := calculateDueDate d } := by
    show List.find? _ (u.borrowedBooks ++ _) = _
    rw [List.find?_append]
    have hnone : u.borrowedBooks.find? (fun e => e.bookId == bookId) = none := by
      rw [List.find?_eq_none]
      intro x hx hPx
      have hany : u.borrowedBooks.any (fun e => e.bookId == bookId) = true :=
        List.any_eq_true.mpr ⟨x, hx, hPx⟩
      rw [hheld] at hany
      exact absurd hany (by simp)
    simp [hnone]
  have hstatus : checkOverdueStatus
      { bookId := bookId, borrowDate := d, dueDate := calculateDueDate d } d
      = (false, 0) := by
    rw [checkOverdueStatus]
    rw [if_neg]
    show ¬(calculateDueDate d < d)
    rw [calculateDueDate]
    omega
  constructor
  · simp [returnBook, hu₁, hb₁, hentry]
  · simp only [returnBook, hu₁, hb₁, hentry, hstatus]
    simp only [findUserByName]
    have hpu2 : (jsToLower ({ u with borrowedBooks := u.borrowedBooks ++
        [{ bookId := bookId, borrowDate := d,
           dueDate := calculateDueDate d }] } : User).name
        == jsToLower userName) = true := hpu
    rw [updateFirstUser_split m₁ m₂ _ userName _ hm₁f hpu2]
    rw [List.find?_append, List.find?_eq_none.mpr (fun x hx => by simp [hm₁f x hx]),
      Option.none_or, List.find?_cons]
    simp [hpu]

/-- Witness for C3: John Doe borrows `B2` on day 0 and returns it the same
day; the penalty points stay at their original value. -/
theorem borrow_then_same_day_return_witness :
    (returnBook (borrowBook demoLib "John Doe" "B2" 0).2 "John Doe" "B2" 0).1 = .ok ()
    ∧ ∃ u2, findUserByName
          (returnBook (borrowBook demoLib "John Doe" "B2" 0).2 "John Doe" "B2" 0).2 "John Doe"
        = some u2
        ∧ u2.penaltyPoints = demoUser.penaltyPoints :=
  borrow_then_same_day_return demoLib "John Doe" "B2" 0 demoUser (by decide) rfl

/-! ### C9: the recommendation algorithm -/

lemma sortByRatingDesc_eq_nil_iff (l : List Book) :
    sortByRatingDesc l = [] ↔ l = [] := by
  constructor
  · intro h
    have hlen := @List.length_mergeSort Book ratingGe l
    rw [show l.mergeSort ratingGe = sortByRatingDesc l from rfl, h] at hlen
    exact List.length_eq_zero.mp hlen.symm
  · intro h
    simp [h, sortByRatingDesc]

/-- C9: for a registered user, if the set of genres of the user's
currently borrowed books is empty, `recommendBooks` returns the top 5
available books not borrowed by the user sorted by rating descending;
otherwise it returns all available unborrowed books whose genre is in that
set, sorted by rating descending and unbounded in length; if that
genre-matching set is empty, the same capped top-5 fallback; and every
returned sequence is sorted non-increasing by rating. -/
theorem recommendBooks_spec (lib : Library) (userName : String) (u : User)
    (hu : findUserByName lib userName = some u) :
    (borrowedGenres lib u = [] →
      (recommendBooks lib userName).1
        = .ok ((sortByRatingDesc (unborrowedAvailable lib u)).take 5))
    ∧ (borrowedGenres lib u ≠ [] →
       (unborrowedAvailable lib u).filter
          (fun b => (borrowedGenres lib u).contains b.genre) = [] →
        (recommendBooks lib userName).1
          = .ok ((sortByRatingDesc (unborrowedAvailable lib u)).take 5))
    ∧ (borrowedGenres lib u ≠ [] →
       (unborrowedAvailable lib u).filter
          (fun b => (borrowedGenres lib u).contains b.genre) ≠ [] →
        (recommendBooks lib userName).1
          = .ok (sortByRatingDesc ((unborrowedAvailable lib u).filter
              (fun b => (borrowedGenres lib u).contains b.genre))))
    ∧ (∀ l, (recommendBooks lib userName).1 = .ok l →
        List.Pairwise (fun a b : Book => b.rating ≤ a.rating) l) := by
  refine ⟨?_, ?_, ?_, ?_⟩
  · intro h
    simp [recommendBooks, hu, h]
  · intro h1 h2
    have hg : (borrowedGenres lib u).isEmpty = false := List.isEmpty_eq_false.mpr h1
    simp at h2
    simp [recommendBooks, hu, hg, sortByRatingDesc_eq_nil_iff, h2]
    rw [if_pos h2]
  · intro h1 h2
    have hg : (borrowedGenres lib u).isEmpty = false := List.isEmpty_eq_false.mpr h1
    simp at h2
    simp [recommendBooks, hu, hg, sortByRatingDesc_eq_nil_iff]
    rcases h2 with ⟨x, hx, hgx⟩
    rw [if_neg (fun hall => (hall x hx) hgx)]
  · intro l hl
    by_cases h : (borrowedGenres lib u).isEmpty = true
    · rw [recommendBooks] at hl
      simp only [hu, h, if_true] at hl
      obtain rfl : (sortByRatingDesc (unborrowedAvailable lib u)).take 5 = l := by
        simpa using hl
      exact (pairwise_sortByRatingDesc (unborrowedAvailable lib u)).sublist
        (List.take_sublist 5 _)
    · have hg : (borrowedGenres lib u).isEmpty = false := by
        rcases hb : (borrowedGenres lib u).isEmpty with _ | _
        · rfl
        · exact absurd hb h
      rw [recommendBooks] at hl
      simp only [hu, hg, Bool.false_eq_true, if_false] at hl
      by_cases hm : ((sortByRatingDesc ((unborrowedAvailable lib u).filter
          (fun b => (borrowedGenres lib u).contains b.genre)))).isEmpty = true
      · simp only [hm, if_true] at hl
        obtain rfl : (sortByRatingDesc (unborrowedAvailable lib u)).take 5 = l := by
          simpa using hl
        exact (pairwise_sortByRatingDesc (unborrowedAvailable lib u)).sublist
          (List.take_sublist 5 _)
      · have hm2 : ((sortByRatingDesc ((unborrowedAvailable lib u).filter
            (fun b => (borrowedGenres lib u).contains b.genre)))).isEmpty = false := by
          rcases hb : ((sortByRatingDesc ((unborrowedAvailable lib u).filter
              (fun b => (borrowedGenres lib u).contains b.genre)))).isEmpty with _ | _
          · rfl
          · exact absurd hb hm
        simp only [hm2, Bool.false_eq_true, if_false] at hl
        obtain rfl : sortByRatingDesc ((unborrowedAvailable lib u).filter
            (fun b => (borrowedGenres lib u).contains b.genre)) = l := by
          simpa using hl
        exact pairwise_sortByRatingDesc _

/-- Witness for C9: John Doe holds the Fantasy book `B1`; no available
unborrowed book is a Fantasy book, so the genre-match set is empty and the
top-5 fallback is returned. -/
theorem recommendBooks_spec_witness :
    (recommendBooks demoBorrowedLib "John Doe").1
      = .ok ((sortByRatingDesc (unborrowedAvailable demoBorrowedLib demoBorrower)).take 5) :=
  ((recommendBooks_spec demoBorrowedLib "John Doe" demoBorrower (by decide)).2.1)
    (by decide) (by decide)

/-! ### C1: counting lemmas for the borrowing invariant -/

lemma entryCount_append_cons (m₁ m₂ : List User) (u : User) (i : String) :
    entryCount (m₁ ++ u :: m₂) i
      = entryCount m₁ i
        + (u.borrowedBooks.filter (fun e => e.bookId == i)).length
        + entryCount m₂ i := by
  simp [entryCount, List.sum_append]
  omega

lemma entryCount_eq_zero_iff (users : List User) (i : String) :
    entryCount users i = 0
      ↔ ∀ u ∈ users, ∀ e ∈ u.borrowedBooks, (e.bookId == i) = false := by
  rw [entryCount, List.sum_eq_zero_iff]
  constructor
  · intro h u hu e he
    have hlen := h _ (List.mem_map_of_mem _ hu)
    rw [List.length_eq_zero, List.filter_eq_nil_iff] at hlen
    have := hlen e he
    rcases hb : (e.bookId == i) with _ | _
    · rfl
    · exact absurd hb this
  · intro h x hx
    rcases List.mem_map.mp hx with ⟨u, hu, rfl⟩
    rw [List.length_eq_zero, List.filter_eq_nil_iff]
    intro e he
    simp [h u hu e he]

lemma any_entry_iff (u : User) (i : String) :
    (u.borrowedBooks.any (fun e => e.bookId == i)) = true
      ↔ 0 < (u.borrowedBooks.filter (fun e => e.bookId == i)).length := by
  rw [List.any_eq_true, List.length_pos]
  constructor
  · rintro ⟨e, he, hei⟩ hnil
    have hmem : e ∈ u.borrowedBooks.filter (fun e => e.bookId == i) :=
      List.mem_filter.mpr ⟨he, hei⟩
    rw [hnil] at hmem
    exact absurd hmem (by simp)
  · intro h
    rcases List.exists_mem_of_ne_nil _ h with ⟨e, he⟩
    rcases List.mem_filter.mp he with ⟨he1, he2⟩
    exact ⟨e, he1, he2⟩

lemma holders_of_entryCount_zero (users : List User) (i : String)
    (h : entryCount users i = 0) : holders users i = 0 := by
  induction users with
  | nil => simp [holders]
  | cons v vs ih =>
    rw [entryCount, List.map_cons, List.sum_cons] at h
    have hc : (v.borrowedBooks.filter (fun e => e.bookId == i)).length = 0 := by omega
    have hrest : entryCount vs i = 0 := by rw [entryCount]; omega
    have hany : (v.borrowedBooks.any (fun e => e.bookId == i)) = false := by
      rcases hb : v.borrowedBooks.any (fun e => e.bookId == i) with _ | _
      · rfl
      · exfalso
        have := (any_entry_iff v i).mp hb
        omega
    rw [holders, List.filter_cons, if_neg (by simp [hany])]
    exact ih hrest

lemma holders_of_entryCount_one (users : List User) (i : String)
    (h : entryCount users i = 1) : holders users i = 1 := by
  induction users with
  | nil => simp [entryCount] at h
  | cons v vs ih =>
    rw [entryCount, List.map_cons, List.sum_cons] at h
    rcases Nat.eq_zero_or_pos (v.borrowedBooks.filter (fun e => e.bookId == i)).length
      with hc | hc
    · have hrest : entryCount vs i = 1 := by rw [entryCount]; omega
      have hany : (v.borrowedBooks.any (fun e => e.bookId == i)) = false := by
        rcases hb : v.borrowedBooks.any (fun e => e.bookId == i) with _ | _
        · rfl
        · exfalso
          have := (any_entry_iff v i).mp hb
          omega
      rw [holders, List.filter_cons, if_neg (by simp [hany])]
      exact ih hrest
    · have hrest : entryCount vs i = 0 := by rw [entryCount]; omega
      have hany : (v.borrowedBooks.any (fun e => e.bookId == i)) = true :=
        (any_entry_iff v i).mpr hc
      have hh0 : holders vs i = 0 := holders_of_entryCount_zero vs i hrest
      rw [holders, List.filter_cons, if_pos (by simp [hany]), List.length_cons]
      rw [holders] at hh0
      omega

/-! ### C1: preservation of the invariant by each operation -/

lemma inv_addBook (lib : Library) (c : BookCandidate) (h : Inv lib) :
    Inv (addBook lib c).2 := by
  obtain ⟨oid, oti, oau, oge, ora, oyr⟩ := c
  rcases oid with _ | i
  · exact h
  rcases oti with _ | t
  · exact h
  rcases oau with _ | a
  · exact h
  rcases oge with _ | g
  · exact h
  rcases ora with _ | r
  · exact h
  rcases oyr with _ | y
  · exact h
  by_cases hval : (i == "" || t == "" || a == "" || g == "" || y == 0) = true
  · have : (addBook lib ⟨some i, some t, some a, some g, some r, some y⟩).2 = lib := by
      simp [addBook, hval]
    rw [this]
    exact h
  rcases hfind : findBookById lib i with _ | b
  · have hstate : (addBook lib ⟨some i, some t, some a, some g, some r, some y⟩).2
        = { books := lib.books ++
              [{ id := i, title := t, author := a, genre := g, rating := r,
                 publicationYear := y, isAvailable := true, borrowCount := 0 }]
            users := lib.users } := by
      simp [addBook, hval, hfind]
    rw [hstate]
    have hnotin : ∀ x ∈ lib.books, ¬(x.id == i) = true :=
      List.find?_eq_none.mp hfind
    refine ⟨?_, ?_, ?_⟩
    · rw [List.map_append, List.nodup_append]
      refine ⟨h.nodupIds, by simp, ?_⟩
      intro x hx hx2
      simp only [List.map_cons, List.map_nil, List.mem_cons] at hx2
      rcases hx2 with hx2 | hx2
      · rcases List.mem_map.mp hx with ⟨b, hb, hbid⟩
        exact hnotin b hb (by simp [hbid, hx2])
      · exact absurd hx2 (by simp)
    · intro b hb
      rcases List.mem_append.mp hb with hb | hb
      · exact h.count b hb
      · have hbval : b
            = ({ id := i, title := t, author := a, genre := g, rating := r,
                 publicationYear := y, isAvailable := true, borrowCount := 0 } : Book) := by
          simpa using hb
        subst hbval
        rw [if_pos rfl]
        rw [entryCount_eq_zero_iff]
        intro u hu e he
        rcases hb2 : (e.bookId == i) with _ | _
        · rfl
        · exfalso
          rcases h.refs u hu e he with ⟨y, hy, hyid⟩
          have : (y.id == i) = true := by
            rw [beq_iff_eq] at hb2 ⊢
            rw [hyid, hb2]
          exact hnotin y hy this
    · intro u hu e he
      rcases h.refs u hu e he with ⟨y, hy, hyid⟩
      exact ⟨y, List.mem_append_left _ hy, hyid⟩
  · have : (addBook lib ⟨some i, some t, some a, some g, some r, some y⟩).2 = lib := by
      simp [addBook, hval, hfind]
    rw [this]
    exact h

lemma inv_removeBook (lib : Library) (bookId : String) (h : Inv lib) :
    Inv (removeBook lib bookId).2 := by
  rcases hfind : findBookById lib bookId with _ | b
  · have hst : (removeBook lib bookId).2 = lib := by simp [removeBook, hfind]
    rw [hst]
    exact h
  rcases hav : b.isAvailable with _ | _
  · have hst : (removeBook lib bookId).2 = lib := by simp [removeBook, hfind, hav]
    rw [hst]
    exact h
  obtain ⟨hpb, l₁, l₂, hdec, hl₁⟩ := List.find?_eq_some.mp hfind
  have hl₁f : ∀ x ∈ l₁, (x.id == bookId) = false := by
    intro x hx
    simpa using hl₁ x hx
  have hst : (removeBook lib bookId).2 = { books := l₁ ++ l₂, users := lib.users } := by
    simp only [removeBook, hfind, hav, Bool.true_eq_false, if_false]
    rw [hdec, eraseFirstBook_split l₁ l₂ b bookId hl₁f hpb]
  have hbmem : b ∈ lib.books := by
    rw [hdec]
    exact List.mem_append_right _ (List.mem_cons_self _ _)
  have hec : entryCount lib.users b.id = 0 := by
    have := h.count b hbmem
    rwa [hav, if_pos rfl] at this
  rw [hst]
  refine ⟨?_, ?_, ?_⟩
  · refine List.Nodup.sublist ?_ (hdec ▸ h.nodupIds)
    rw [List.map_append, List.map_append, List.map_cons]
    exact List.Sublist.append (List.Sublist.refl _) (List.sublist_cons_self _ _)
  · intro x hx
    have hxmem : x ∈ lib.books := by
      rw [hdec]
      rcases List.mem_append.mp hx with hx | hx
      · exact List.mem_append_left _ hx
      · exact List.mem_append_right _ (List.mem_cons_of_mem _ hx)
    exact h.count x hxmem
  · intro u hu e he
    rcases h.refs u hu e he with ⟨y, hy, hyid⟩
    rw [hdec] at hy
    rcases List.mem_append.mp hy with hy | hy
    · exact ⟨y, List.mem_append_left _ hy, hyid⟩
    rcases List.mem_cons.mp hy with hy | hy
    · exfalso
      have hnomatch := (entryCount_eq_zero_iff lib.users b.id).mp hec u hu e he
      have : (e.bookId == b.id) = true := by
        rw [beq_iff_eq, ← hyid, hy]
      rw [this] at hnomatch
      exact absurd hnomatch (by simp)
    · exact ⟨y, List.mem_append_right _ hy, hyid⟩

lemma inv_borrowBook (lib : Library) (userName bookId : String) (today : Int)
    (h : Inv lib) : Inv (borrowBook lib userName bookId today).2 := by
  rcases hu : findUserByName lib userName with _ | u
  · have hst : (borrowBook lib userName bookId today).2 = lib := by
      simp [borrowBook, hu]
    rw [hst]
    exact h
  rcases hbk : findBookById lib bookId with _ | b
  · have hst : (borrowBook lib userName bookId today).2 = lib := by
      simp [borrowBook, hu, hbk]
    rw [hst]
    exact h
  rcases hav : b.isAvailable with _ | _
  · have hst : (borrowBook lib userName bookId today).2 = lib := by
      simp [borrowBook, hu, hbk, hav]
    rw [hst]
    exact h
  rcases hheld : u.borrowedBooks.any (fun e => e.bookId == bookId) with _ | _
  case true =>
    have hst : (borrowBook lib userName bookId today).2 = lib := by
      simp [borrowBook, hu, hbk, hav, hheld]
    rw [hst]
    exact h
  case false =>
  obtain ⟨hpu, m₁, m₂, hdecu, hm₁⟩ := List.find?_eq_some.mp hu
  have hm₁f : ∀ x ∈ m₁, (jsToLower x.name == jsToLower userName) = false := by
    intro x hx
    simpa using hm₁ x hx
  obtain ⟨hpb, l₁, l₂, hdecb, hl₁⟩ := List.find?_eq_some.mp hbk
  have hl₁f : ∀ x ∈ l₁, (x.id == bookId) = false := by
    intro x hx
    simpa using hl₁ x hx
  have hbid : b.id = bookId := beq_iff_eq.mp hpb
  have hstate : (borrowBook lib userName bookId today).2
      = { books := l₁ ++
            ({ b with isAvailable := false, borrowCount := b.borrowCount + 1 }) :: l₂
          users := m₁ ++
            ({ u with borrowedBooks := u.borrowedBooks ++
                [{ bookId := bookId, borrowDate := today,
                   dueDate := calculateDueDate today }] }) :: m₂ } := by
    rw [borrowBook, hu, hbk]
    simp only [hav, Bool.true_eq_false, if_false, hheld, Bool.false_eq_true]
    congr 1
    · rw [hdecb]
      exact updateFirstBook_split l₁ l₂ b bookId _ hl₁f hpb
    · rw [hdecu]
      exact updateFirstUser_split m₁ m₂ u userName _ hm₁f hpu
  have hbmem : b ∈ lib.books := by
    rw [hdecb]
    exact List.mem_append_right _ (List.mem_cons_self _ _)
  have hec0 : entryCount (m₁ ++ u :: m₂) bookId = 0 := by
    have hc := h.count b hbmem
    rw [hav, if_pos rfl, hbid, hdecu] at hc
    exact hc
  have hsplit0 := entryCount_append_cons m₁ m₂ u bookId
  have hm10 : entryCount m₁ bookId = 0 := by omega
  have hm20 : entryCount m₂ bookId = 0 := by omega
  have hu0 : (u.borrowedBooks.filter (fun e => e.bookId == bookId)).length = 0 := by omega
  have hxne : ∀ x, x ∈ l₁ ∨ x ∈ l₂ → x.id ≠ b.id := by
    intro x hx hxe
    have hnd := hdecb ▸ h.nodupIds
    rw [List.map_append, List.map_cons, List.nodup_append] at hnd
    rcases hnd with ⟨hnd₁, hnd₂, hdisj⟩
    rcases hx with hx | hx
    · exact hdisj (List.mem_map_of_mem _ hx) (by simp [hxe])
    · exact (List.nodup_cons.mp hnd₂).1
        (by rw [← hxe]; exact List.mem_map_of_mem _ hx)
  rw [hstate]
  refine ⟨?_, ?_, ?_⟩
  · have hmapeq : ((l₁ ++
        ({ b with isAvailable := false, borrowCount := b.borrowCount + 1 }) :: l₂).map
          Book.id) = lib.books.map Book.id := by
      rw [hdecb]
      simp
    rw [hmapeq]
    exact h.nodupIds
  · intro x hx
    rcases List.mem_append.mp hx with hx | hx
    · have hxid : (bookId == x.id) = false := by
        have := hxne x (Or.inl hx)
        rw [← hbid]
        simp only [beq_eq_false_iff_ne, ne_eq]
        intro hc
        exact this hc.symm
      have hxmem : x ∈ lib.books := by
        rw [hdecb]
        exact List.mem_append_left _ hx
      have hcx := h.count x hxmem
      rw [hdecu] at hcx
      rw [entryCount_append_cons] at hcx ⊢
      rw [List.filter_append] at *
      simp only [List.filter_cons, List.filter_nil, hxid, Bool.false_eq_true, if_false,
        List.length_append, List.length_nil] at *
      omega
    rcases List.mem_cons.mp hx with rfl | hx
    · show entryCount _ b.id = _
      rw [hbid]
      rw [entryCount_append_cons, List.filter_append]
      simp only [List.filter_cons, List.filter_nil, beq_self_eq_true, eq_self_iff_true,
        if_true, List.length_append, List.length_cons, List.length_nil,
        Bool.false_eq_true, if_false]
      omega
    · have hxid : (bookId == x.id) = false := by
        have := hxne x (Or.inr hx)
        rw [← hbid]
        simp only [beq_eq_false_iff_ne, ne_eq]
        intro hc
        exact this hc.symm
      have hxmem : x ∈ lib.books := by
        rw [hdecb]
        exact List.mem_append_right _ (List.mem_cons_of_mem _ hx)
      have hcx := h.count x hxmem
      rw [hdecu] at hcx
      rw [entryCount_append_cons] at hcx ⊢
      rw [List.filter_append] at *
      simp only [List.filter_cons, List.filter_nil, hxid, Bool.false_eq_true, if_false,
        List.length_append, List.length_nil] at *
      omega
  · have hids : ∀ j, (∃ y ∈ lib.books, y.id = j) →
        ∃ y ∈ (l₁ ++
          ({ b with isAvailable := false, borrowCount := b.borrowCount + 1 }) :: l₂),
          y.id = j := by
      rintro j ⟨y, hy, hyid⟩
      rw [hdecb] at hy
      rcases List.mem_append.mp hy with hy | hy
      · exact ⟨y, List.mem_append_left _ hy, hyid⟩
      rcases List.mem_cons.mp hy with rfl | hy
      · exact ⟨{ y with isAvailable := false, borrowCount := y.borrowCount + 1 },
          List.mem_append_right _ (List.mem_cons_self _ _), hyid⟩
      · exact ⟨y, List.mem_append_right _ (List.mem_cons_of_mem _ hy), hyid⟩
    intro u₂ hu₂ e he
    rcases List.mem_append.mp hu₂ with hu₂ | hu₂
    · have hu₂mem : u₂ ∈ lib.users := by
        rw [hdecu]
        exact List.mem_append_left _ hu₂
      exact hids _ (h.refs u₂ hu₂mem e he)
    rcases List.mem_cons.mp hu₂ with rfl | hu₂
    · rcases List.mem_append.mp he with he | he
      · have humem : u ∈ lib.users := by
          rw [hdecu]
          exact List.mem_append_right _ (List.mem_cons_self _ _)
        exact hids _ (h.refs u humem e he)
      · have heval : e = BorrowEntry.mk bookId today (calculateDueDate today) := by
          simpa using he
        subst heval
        exact ⟨{ b with isAvailable := false, borrowCount := b.borrowCount + 1 },
          List.mem_append_right _ (List.mem_cons_self _ _), hbid⟩
    · have hu₂mem : u₂ ∈ lib.users := by
        rw [hdecu]
        exact List.mem_append_right _ (List.mem_cons_of_mem _ hu₂)
      exact hids _ (h.refs u₂ hu₂mem e he)

/-- Core of the `returnBook` preservation argument: after erasing the
user's first entry for the book and marking the book available, the
invariant holds again, whatever happened to the penalty points. -/
lemma inv_after_return (lib : Library) (bookId : String) (u uret : User) (b : Book)
    (m₁ m₂ : List User) (l₁ l₂ : List Book)
    (hdecu : lib.users = m₁ ++ u :: m₂) (hdecb : lib.books = l₁ ++ b :: l₂)
    (hbid : b.id = bookId)
    (hsomee : ∃ e ∈ u.borrowedBooks, (e.bookId == bookId) = true)
    (hbor : uret.borrowedBooks = eraseFirstEntry u.borrowedBooks bookId)
    (h : Inv lib) :
    Inv { books := l₁ ++ ({ b with isAvailable := true }) :: l₂
          users := m₁ ++ uret :: m₂ } := by
  have hfindsome : ∃ e, u.borrowedBooks.find? (fun x => x.bookId == bookId) = some e := by
    rcases hsomee with ⟨e0, he0, hpe0⟩
    rcases hf : u.borrowedBooks.find? (fun x => x.bookId == bookId) with _ | e
    · exact absurd hpe0 (List.find?_eq_none.mp hf e0 he0)
    · exact ⟨e, hf⟩
  rcases hfindsome with ⟨e, hfe⟩
  obtain ⟨hpe, a₁, a₂, hdece, ha₁⟩ := List.find?_eq_some.mp hfe
  have ha₁f : ∀ x ∈ a₁, (x.bookId == bookId) = false := by
    intro x hx
    simpa using ha₁ x hx
  have herase : eraseFirstEntry u.borrowedBooks bookId = a₁ ++ a₂ := by
    rw [hdece]
    exact eraseFirstEntry_split a₁ a₂ e bookId ha₁f hpe
  have hbmem : b ∈ lib.books := by
    rw [hdecb]
    exact List.mem_append_right _ (List.mem_cons_self _ _)
  have humem : u ∈ lib.users := by
    rw [hdecu]
    exact List.mem_append_right _ (List.mem_cons_self _ _)
  have hemem : e ∈ u.borrowedBooks := by
    rw [hdece]
    exact List.mem_append_right _ (List.mem_cons_self _ _)
  have hav : b.isAvailable = false := by
    rcases hav2 : b.isAvailable with _ | _
    · rfl
    · exfalso
      have hc := h.count b hbmem
      rw [hav2, if_pos rfl] at hc
      have := (entryCount_eq_zero_iff lib.users b.id).mp hc u humem e hemem
      rw [hbid] at this
      rw [hpe] at this
      exact absurd this (by simp)
  have hEC1 : entryCount lib.users bookId = 1 := by
    have hc := h.count b hbmem
    rw [hav, hbid] at hc
    simpa using hc
  have hsplit := entryCount_append_cons m₁ m₂ u bookId
  rw [← hdecu, hEC1] at hsplit
  have hflen : (u.borrowedBooks.filter (fun x => x.bookId == bookId)).length
      = 1 + (a₂.filter (fun x => x.bookId == bookId)).length := by
    rw [hdece, List.filter_append, List.filter_cons, if_pos hpe]
    rw [List.filter_eq_nil_iff.mpr (fun x hx => by simp [ha₁f x hx])]
    simp only [List.nil_append, List.length_cons]
    omega
  have hm10 : entryCount m₁ bookId = 0 := by omega
  have hm20 : entryCount m₂ bookId = 0 := by omega
  have ha₂0 : (a₂.filter (fun x => x.bookId == bookId)).length = 0 := by omega
  have hxne : ∀ x, x ∈ l₁ ∨ x ∈ l₂ → x.id ≠ b.id := by
    intro x hx hxe
    have hnd := hdecb ▸ h.nodupIds
    rw [List.map_append, List.map_cons, List.nodup_append] at hnd
    rcases hnd with ⟨hnd₁, hnd₂, hdisj⟩
    rcases hx with hx | hx
    · exact hdisj (List.mem_map_of_mem _ hx) (by simp [hxe])
    · exact (List.nodup_cons.mp hnd₂).1
        (by rw [← hxe]; exact List.mem_map_of_mem _ hx)
  have huret_other : ∀ j, j ≠ bookId →
      (uret.borrowedBooks.filter (fun x => x.bookId == j)).length
        = (u.borrowedBooks.filter (fun x => x.bookId == j)).length := by
    intro j hj
    rw [hbor, herase, hdece, List.filter_append, List.filter_append, List.filter_cons]
    have : (e.bookId == j) = false := by
      rw [beq_iff_eq] at hpe
      simp only [beq_eq_false_iff_ne, ne_eq, hpe]
      exact fun hc => hj hc.symm
    rw [this]
    simp
  refine ⟨?_, ?_, ?_⟩
  · have hmapeq : ((l₁ ++ ({ b with isAvailable := true }) :: l₂).map Book.id)
        = lib.books.map Book.id := by
      rw [hdecb]
      simp
    rw [hmapeq]
    exact h.nodupIds
  · intro x hx
    rcases List.mem_append.mp hx with hx | hx
    · have hxmem : x ∈ lib.books := by
        rw [hdecb]
        exact List.mem_append_left _ hx
      have hcx := h.count x hxmem
      rw [hdecu] at hcx
      rw [entryCount_append_cons] at hcx ⊢
      rw [huret_other x.id (fun hc => hxne x (Or.inl hx) (hc ▸ hbid.symm))]
      exact hcx
    rcases List.mem_cons.mp hx with rfl | hx
    · show entryCount _ b.id = _
      rw [hbid, if_pos rfl]
      rw [entryCount_append_cons]
      have : (uret.borrowedBooks.filter (fun x => x.bookId == bookId)).length = 0 := by
        rw [hbor, herase, List.filter_append]
        rw [List.filter_eq_nil_iff.mpr (fun x hx => by simp [ha₁f x hx])]
        simp [ha₂0]
      omega
    · have hxmem : x ∈ lib.books := by
        rw [hdecb]
        exact List.mem_append_right _ (List.mem_cons_of_mem _ hx)
      have hcx := h.count x hxmem
      rw [hdecu] at hcx
      rw [entryCount_append_cons] at hcx ⊢
      rw [huret_other x.id (fun hc => hxne x (Or.inr hx) (hc ▸ hbid.symm))]
      exact hcx
  · have hids : ∀ j, (∃ y ∈ lib.books, y.id = j) →
        ∃ y ∈ (l₁ ++ ({ b with isAvailable := true }) :: l₂), y.id = j := by
      rintro j ⟨y, hy, hyid⟩
      rw [hdecb] at hy
      rcases List.mem_append.mp hy with hy | hy
      · exact ⟨y, List.mem_append_left _ hy, hyid⟩
      rcases List.mem_cons.mp hy with rfl | hy
      · exact ⟨{ y with isAvailable := true },
          List.mem_append_right _ (List.mem_cons_self _ _), hyid⟩
      · exact ⟨y, List.mem_append_right _ (List.mem_cons_of_mem _ hy), hyid⟩
    intro u₂ hu₂ e2 he2
    rcases List.mem_append.mp hu₂ with hu₂ | hu₂
    · have hu₂mem : u₂ ∈ lib.users := by
        rw [hdecu]
        exact List.mem_append_left _ hu₂
      exact hids _ (h.refs u₂ hu₂mem e2 he2)
    rcases List.mem_cons.mp hu₂ with rfl | hu₂
    · have he2u : e2 ∈ u.borrowedBooks := by
        rw [hbor, herase] at he2
        rw [hdece]
        rcases List.mem_append.mp he2 with he2 | he2
        · exact List.mem_append_left _ he2
        · exact List.mem_append_right _ (List.mem_cons_of_mem _ he2)
      exact hids _ (h.refs u humem e2 he2u)
    · have hu₂mem : u₂ ∈ lib.users := by
        rw [hdecu]
        exact List.mem_append_right _ (List.mem_cons_of_mem _ hu₂)
      exact hids _ (h.refs u₂ hu₂mem e2 he2)

lemma inv_returnBook (lib : Library) (userName bookId : String) (today : Int)
    (h : Inv lib) : Inv (returnBook lib userName bookId today).2 := by
  rcases hu : findUserByName lib userName with _ | u
  · have hst : (returnBook lib userName bookId today).2 = lib := by
      simp [returnBook, hu]
    rw [hst]
    exact h
  rcases hbk : findBookById lib bookId with _ | b
  · have hst : (returnBook lib userName bookId today).2 = lib := by
      simp [returnBook, hu, hbk]
    rw [hst]
    exact h
  rcases hentry : findFirstEntry u.borrowedBooks bookId with _ | e
  · have hst : (returnBook lib userName bookId today).2 = lib := by
      simp [returnBook, hu, hbk, hentry]
    rw [hst]
    exact h
  obtain ⟨hpu, m₁, m₂, hdecu, hm₁⟩ := List.find?_eq_some.mp hu
  have hm₁f : ∀ x ∈ m₁, (jsToLower x.name == jsToLower userName) = false := by
    intro x hx
    simpa using hm₁ x hx
  obtain ⟨hpb, l₁, l₂, hdecb, hl₁⟩ := List.find?_eq_some.mp hbk
  have hl₁f : ∀ x ∈ l₁, (x.id == bookId) = false := by
    intro x hx
    simpa using hl₁ x hx
  have hbid : b.id = bookId := beq_iff_eq.mp hpb
  have hsomee : ∃ x ∈ u.borrowedBooks, (x.bookId == bookId) = true := by
    obtain ⟨hpe, a₁, a₂, hdece, ha₁⟩ := List.find?_eq_some.mp hentry
    exact ⟨e, by rw [hdece]; exact List.mem_append_right _ (List.mem_cons_self _ _), hpe⟩
  rcases hov : (checkOverdueStatus e today).1 with _ | _
  · have hstate : (returnBook lib userName bookId today).2
        = { books := l₁ ++ ({ b with isAvailable := true }) :: l₂
            users := m₁ ++
              ({ u with borrowedBooks := eraseFirstEntry u.borrowedBooks bookId }) :: m₂ } := by
      rw [returnBook, hu, hbk]
      simp only [hentry, hov, Bool.false_eq_true, if_false]
      congr 1
      · rw [hdecb]
        exact updateFirstBook_split l₁ l₂ b bookId _ hl₁f hpb
      · rw [hdecu]
        exact updateFirstUser_split m₁ m₂ u userName _ hm₁f hpu
    rw [hstate]
    exact inv_after_return lib bookId u _ b m₁ m₂ l₁ l₂ hdecu hdecb hbid hsomee rfl h
  · have hstate : (returnBook lib userName bookId today).2
        = { books := l₁ ++ ({ b with isAvailable := true }) :: l₂
            users := m₁ ++
              ({ u with
                  borrowedBooks := eraseFirstEntry u.borrowedBooks bookId
                  penaltyPoints :=
                    u.penaltyPoints + (checkOverdueStatus e today).2 * 5 }) :: m₂ } := by
      rw [returnBook, hu, hbk]
      simp only [hentry, hov, if_true]
      congr 1
      · rw [hdecb]
        exact updateFirstBook_split l₁ l₂ b bookId _ hl₁f hpb
      · rw [hdecu]
        exact updateFirstUser_split m₁ m₂ u userName _ hm₁f hpu
    rw [hstate]
    exact inv_after_return lib bookId u _ b m₁ m₂ l₁ l₂ hdecu hdecb hbid hsomee rfl h

lemma applyOp_preserves_inv (lib : Library) (op : CatalogOp) (h : Inv lib) :
    Inv (applyOp lib op) := by
  rcases op with c | ⟨userName, bookId, today⟩ | ⟨userName, bookId, today⟩ | bookId
  · exact inv_addBook lib c h
  · exact inv_borrowBook lib userName bookId today h
  · exact inv_returnBook lib userName bookId today h
  · exact inv_removeBook lib bookId h

lemma runOps_preserves_inv (ops : List CatalogOp) (lib : Library) (h : Inv lib) :
    Inv (runOps lib ops) := by
  induction ops generalizing lib with
  | nil => exact h
  | cons op ops ih => exact ih _ (applyOp_preserves_inv lib op h)

lemma inv_of_initial (lib : Library) (hnb : noBorrows lib) (hav : allAvailable lib)
    (hnd : (lib.books.map Book.id).Nodup) : Inv lib := by
  refine ⟨hnd, ?_, ?_⟩
  · intro b hb
    rw [hav b hb, if_pos rfl, entryCount_eq_zero_iff]
    intro u hu e he
    rw [hnb u hu] at he
    exact absurd he (by simp)
  · intro u hu e he
    rw [hnb u hu] at he
    exact absurd he (by simp)

/-- C1: starting from a catalog with unique book ids in which no user
holds any book and every book is available, after any sequence of
`addBook`, `borrowBook`, `returnBook`, `removeBook` operations, a book's
`isAvailable` flag is `false` if and only if exactly one user's
`borrowedBooks` list contains an entry for that book's id. -/
theorem catalog_borrow_invariant (lib₀ : Library) (ops : List CatalogOp)
    (hnb : noBorrows lib₀) (hav : allAvailable lib₀)
    (hnd : (lib₀.books.map Book.id).Nodup) :
    ∀ b ∈ (runOps lib₀ ops).books,
      (b.isAvailable = false ↔ holders (runOps lib₀ ops).users b.id = 1) := by
  have hinv := runOps_preserves_inv ops lib₀ (inv_of_initial lib₀ hnb hav hnd)
  intro b hb
  have hc := hinv.count b hb
  rcases hav2 : b.isAvailable with _ | _
  · rw [hav2, if_neg (by simp)] at hc
    exact ⟨fun _ => holders_of_entryCount_one _ _ hc, fun _ => rfl⟩
  · rw [hav2, if_pos rfl] at hc
    constructor
    · intro hcontra
      exact absurd hcontra (by simp)
    · intro hh
      rw [holders_of_entryCount_zero _ _ hc] at hh
      exact absurd hh (by simp)

/-- Witness for C1: John Doe borrows `B1` on the demo catalog; afterwards
`B1` is unavailable and exactly one user holds it. -/
theorem catalog_borrow_invariant_witness :
    (({ demoBook1 with isAvailable := false, borrowCount := 1 } : Book).isAvailable = false
      ↔ holders (runOps demoLib [CatalogOp.borrow "John Doe" "B1" 0]).users
          ({ demoBook1 with isAvailable := false, borrowCount := 1 } : Book).id = 1) :=
  catalog_borrow_invariant demoLib [CatalogOp.borrow "John Doe" "B1" 0]
    (by unfold noBorrows; decide) (by unfold allAvailable; decide) (by decide) _ (by decide)

end VirtualLibrary
